import Mathlib

/-!
# Metal-enrollment control plane: a shallow embedding

Definitions in this file are translated from the Go sources of the
metal-enrollment repository (API handlers, database layer, webhook
dispatcher, build orchestrator, chain-boot dispatcher).  Time is modelled
as a natural number clock, database tables as lists of records, and each
HTTP handler as a pure function from its inputs (parsed request, current
table, fresh identifiers, clock) to its observable result (status code,
response body, new table).  Fallible external effects (file system,
subprocesses, outbound HTTP) enter as explicit parameters.
-/

set_option maxHeartbeats 1000000
set_option maxRecDepth 16384

namespace MetalEnroll

/-- Machine lifecycle status, from `pkg/models` (`MachineStatus` constants
`unknown/enrolled/configured/building/ready/provisioned/failed`). -/
inductive MachineStatus
  | unknown
  | enrolled
  | configured
  | building
  | ready
  | provisioned
  | failed
deriving DecidableEq, Repr

/-- BMC/IPMI configuration, from `models.BMCInfo` (ip, user, password,
type, port, enabled). -/
structure BMCInfo where
  ipAddress : String
  username : String
  password : String
  btype : String
  port : Nat
  enabled : Bool
deriving DecidableEq, Repr

/-- A machine record, from `models.Machine`.  The nested hardware document
is opaque to every claim here and is kept as its JSON text. -/
structure Machine where
  id : String
  serviceTag : String
  macAddress : String
  status : MachineStatus
  hostname : String
  description : String
  hardware : String
  nixosConfig : String
  lastBuildId : Option String
  lastBuildTime : Option Nat
  bmcInfo : Option BMCInfo
  enrolledAt : Nat
  updatedAt : Nat
  lastSeenAt : Option Nat
deriving DecidableEq, Repr

/-- Enrollment request body, from `models.EnrollmentRequest`. -/
structure EnrollmentRequest where
  serviceTag : String
  macAddress : String
  hardware : String
deriving DecidableEq, Repr

/-- `database.GetMachineByServiceTag`: `SELECT ... WHERE service_tag = ?`,
i.e. the first row carrying the tag (`sql.ErrNoRows ↦ none`). -/
def getMachineByServiceTag (tbl : List Machine) (tag : String) : Option Machine :=
  tbl.find? (fun m => m.serviceTag == tag)

/-- `database.GetMachine`: `SELECT ... WHERE id = ?`
(`sql.ErrNoRows ↦ none`). -/
def getMachineById (tbl : List Machine) (i : String) : Option Machine :=
  tbl.find? (fun m => m.id == i)

/-- `database.UpdateMachine`: sets `updated_at := time.Now()` on the passed
record and rewrites every column of the row `WHERE id`. -/
def updateMachineDB (tbl : List Machine) (m : Machine) (now : Nat) : List Machine :=
  tbl.map (fun r => if r.id == m.id then { m with updatedAt := now } else r)

/-- `database.CreateMachine`: a fresh row with `status = enrolled`,
`enrolled_at = now`, a fresh uuid, and no hostname/config/BMC yet. -/
def newMachine (req : EnrollmentRequest) (freshId : String) (now : Nat) : Machine :=
  { id := freshId
    serviceTag := req.serviceTag
    macAddress := req.macAddress
    status := .enrolled
    hostname := ""
    description := ""
    hardware := req.hardware
    nixosConfig := ""
    lastBuildId := none
    lastBuildTime := none
    bmcInfo := none
    enrolledAt := now
    updatedAt := now
    lastSeenAt := none }

/-- Observable result of one `POST /enroll` call. -/
structure EnrollResult where
  table : List Machine
  httpStatus : Nat
  body : Option Machine
deriving DecidableEq, Repr

/-- `handleEnroll` (API service): validate `service_tag`/`mac_address`,
look the tag up; on a hit stamp `last_seen_at` and store the row with
`UpdateMachine` (which also stamps `updated_at`), answering 200 with the
stamped record; on a miss insert a fresh `enrolled` machine, answering
201 with it. -/
def handleEnroll (tbl : List Machine) (req : EnrollmentRequest)
    (freshId : String) (now : Nat) : EnrollResult :=
  if req.serviceTag == "" || req.macAddress == "" then
    { table := tbl, httpStatus := 400, body := none }
  else
    match getMachineByServiceTag tbl req.serviceTag with
    | some existing =>
        let touched := { existing with lastSeenAt := some now }
        { table := updateMachineDB tbl touched now
          httpStatus := 200
          body := some { touched with updatedAt := now } }
    | none =>
        let m := newMachine req freshId now
        { table := tbl ++ [m], httpStatus := 201, body := some m }

/-- Number of rows carrying a service tag. -/
def countByTag (tbl : List Machine) (tag : String) : Nat :=
  (tbl.filter (fun m => m.serviceTag == tag)).length

/-- A whole sequence of `POST /enroll` calls with one payload; each call
brings its own fresh id and (clock) timestamp. -/
def enrollSeq (tbl : List Machine) (req : EnrollmentRequest)
    (calls : List (String × Nat)) : List Machine :=
  calls.foldl (fun t c => (handleEnroll t req c.1 c.2).table) tbl

theorem countByTag_eq_zero_of_find_none {tbl : List Machine} {tag : String}
    (h : getMachineByServiceTag tbl tag = none) : countByTag tbl tag = 0 := by
  unfold getMachineByServiceTag at h
  unfold countByTag
  rw [List.find?_eq_none] at h
  simp only [List.length_eq_zero, List.filter_eq_nil_iff]
  intro m hm
  exact h m hm

theorem updateMachineDB_id_fixed {rest : List Machine} {q : Machine} {now : Nat}
    (h : ∀ x ∈ rest, x.id ≠ q.id) :
    updateMachineDB rest q now = rest := by
  unfold updateMachineDB
  induction rest with
  | nil => rfl
  | cons r rs ih =>
    have hr : ¬ ((r.id == q.id) = true) := by
      simp only [beq_iff_eq]
      exact h r (List.mem_cons_self r rs)
    simp only [List.map_cons, if_neg hr]
    have := ih (fun x hx => h x (List.mem_cons_of_mem r hx))
    rw [this]

theorem updateMachineDB_map_id (tbl : List Machine) (q : Machine) (now : Nat) :
    (updateMachineDB tbl q now).map Machine.id = tbl.map Machine.id := by
  unfold updateMachineDB
  rw [List.map_map]
  apply List.map_congr_left
  intro r _
  by_cases h : r.id = q.id
  · simp [h]
  · simp [h]

theorem updateMachineDB_find_count {tbl : List Machine} {tag : String}
    {m : Machine} (q : Machine) (now : Nat)
    (hn : (tbl.map Machine.id).Nodup)
    (hfind : getMachineByServiceTag tbl tag = some m)
    (hid : q.id = m.id) (htag : q.serviceTag = m.serviceTag) :
    getMachineByServiceTag (updateMachineDB tbl q now) tag
        = some { q with updatedAt := now } ∧
    countByTag (updateMachineDB tbl q now) tag = countByTag tbl tag := by
  induction tbl with
  | nil => simp [getMachineByServiceTag] at hfind
  | cons r rest ih =>
    simp only [List.map_cons, List.nodup_cons] at hn
    by_cases hr : r.serviceTag = tag
    · have hmr : r = m := by
        unfold getMachineByServiceTag at hfind
        rw [List.find?_cons_of_pos rest (by simp [hr])] at hfind
        exact Option.some_inj.mp hfind
      have hrid : (r.id == q.id) = true := by
        simp only [beq_iff_eq]
        rw [hmr, ← hid]
      have hrest : updateMachineDB rest q now = rest := by
        apply updateMachineDB_id_fixed
        intro x hx hxq
        apply hn.1
        rw [hmr, ← hid, ← hxq]
        exact List.mem_map_of_mem Machine.id hx
      have hmtag : m.serviceTag = tag := hmr ▸ hr
      have hq : q.serviceTag = tag := htag.trans hmtag
      constructor
      · show List.find? _ (List.map _ (r :: rest)) = _
        simp only [List.map_cons, hrid, if_true]
        have h2 : updateMachineDB rest q now
            = List.map (fun x => if (x.id == q.id) = true then { q with updatedAt := now } else x) rest := rfl
        rw [← h2, hrest]
        rw [List.find?_cons_of_pos rest (by simp only [beq_iff_eq]; exact hq)]
      · show (List.filter _ (List.map _ (r :: rest))).length = (List.filter _ (r :: rest)).length
        simp only [List.map_cons, hrid, if_true]
        have h2 : updateMachineDB rest q now
            = List.map (fun x => if (x.id == q.id) = true then { q with updatedAt := now } else x) rest := rfl
        rw [← h2, hrest]
        rw [List.filter_cons_of_pos (by simp only [beq_iff_eq]; exact hq),
            List.filter_cons_of_pos (by simp only [beq_iff_eq]; exact hr)]
        simp only [List.length_cons]
    · have hfind' : getMachineByServiceTag rest tag = some m := by
        unfold getMachineByServiceTag at hfind ⊢
        rw [List.find?_cons_of_neg rest (by simp [hr])] at hfind
        exact hfind
      have hmem : m ∈ rest := List.mem_of_find?_eq_some hfind'
      have hne : ¬ ((r.id == q.id) = true) := by
        simp only [beq_iff_eq]
        intro hc
        apply hn.1
        rw [hc, hid]
        exact List.mem_map_of_mem Machine.id hmem
      obtain ⟨ih1, ih2⟩ := ih hn.2 hfind'
      constructor
      · show List.find? _ (List.map _ (r :: rest)) = _
        simp only [List.map_cons, if_neg hne]
        rw [List.find?_cons_of_neg _ (by simp [hr])]
        exact ih1
      · show (List.filter _ (List.map _ (r :: rest))).length = (List.filter _ (r :: rest)).length
        simp only [List.map_cons, if_neg hne]
        simp only [List.filter_cons]
        have hrt : ¬ ((r.serviceTag == tag) = true) := by simp [hr]
        simp only [if_neg hrt]
        exact ih2

theorem find_tag_append_none {tbl : List Machine} {tag : String}
    (h : getMachineByServiceTag tbl tag = none) (tbl₂ : List Machine) :
    getMachineByServiceTag (tbl ++ tbl₂) tag = getMachineByServiceTag tbl₂ tag := by
  unfold getMachineByServiceTag at h ⊢
  induction tbl with
  | nil => rfl
  | cons r rest ih =>
    rw [List.find?_eq_none] at h
    have hr : ¬ ((r.serviceTag == tag) = true) := h r (List.mem_cons_self r rest)
    rw [List.cons_append, List.find?_cons_of_neg (rest ++ tbl₂) hr]
    apply ih
    rw [List.find?_eq_none]
    intro x hx
    exact h x (List.mem_cons_of_mem r hx)

theorem handleEnroll_valid_branch {req : EnrollmentRequest}
    (hv : req.serviceTag ≠ "" ∧ req.macAddress ≠ "") :
    (req.serviceTag == "" || req.macAddress == "") = false := by
  simp [hv.1, hv.2]

theorem handleEnroll_update {tbl : List Machine} {req : EnrollmentRequest}
    {fid : String} {t : Nat} {m : Machine}
    (hv : req.serviceTag ≠ "" ∧ req.macAddress ≠ "")
    (hfind : getMachineByServiceTag tbl req.serviceTag = some m) :
    handleEnroll tbl req fid t =
      { table := updateMachineDB tbl { m with lastSeenAt := some t } t
        httpStatus := 200
        body := some { m with lastSeenAt := some t, updatedAt := t } } := by
  unfold handleEnroll
  rw [handleEnroll_valid_branch hv]
  simp only [Bool.false_eq_true, if_neg, not_false_iff, hfind]

theorem handleEnroll_create {tbl : List Machine} {req : EnrollmentRequest}
    {fid : String} {t : Nat}
    (hv : req.serviceTag ≠ "" ∧ req.macAddress ≠ "")
    (hfind : getMachineByServiceTag tbl req.serviceTag = none) :
    handleEnroll tbl req fid t =
      { table := tbl ++ [newMachine req fid t]
        httpStatus := 201
        body := some (newMachine req fid t) } := by
  unfold handleEnroll
  rw [handleEnroll_valid_branch hv]
  simp only [Bool.false_eq_true, if_neg, not_false_iff, hfind]

theorem countByTag_exists_of_pos (tbl : List Machine) (tag : String)
    (h : 0 < countByTag tbl tag) :
    ∃ m, getMachineByServiceTag tbl tag = some m := by
  cases hf : getMachineByServiceTag tbl tag with
  | none => rw [countByTag_eq_zero_of_find_none hf] at h; exact absurd h (by simp)
  | some m => exact ⟨m, rfl⟩

theorem handleEnroll_table_inv {tbl : List Machine} {req : EnrollmentRequest}
    (hv : req.serviceTag ≠ "" ∧ req.macAddress ≠ "")
    (hn : (tbl.map Machine.id).Nodup)
    (hc : countByTag tbl req.serviceTag = 1) (fid : String) (t : Nat) :
    countByTag (handleEnroll tbl req fid t).table req.serviceTag = 1 ∧
    ((handleEnroll tbl req fid t).table.map Machine.id).Nodup := by
  obtain ⟨m, hm⟩ := countByTag_exists_of_pos tbl req.serviceTag
    (by rw [hc]; exact Nat.one_pos)
  rw [handleEnroll_update hv hm]
  obtain ⟨-, hcount⟩ := updateMachineDB_find_count { m with lastSeenAt := some t } t hn hm rfl rfl
  refine ⟨hcount.trans hc, ?_⟩
  rw [updateMachineDB_map_id]
  exact hn

theorem enrollSeq_inv {req : EnrollmentRequest}
    (hv : req.serviceTag ≠ "" ∧ req.macAddress ≠ "")
    (calls : List (String × Nat)) :
    ∀ tbl, (tbl.map Machine.id).Nodup → countByTag tbl req.serviceTag = 1 →
    countByTag (enrollSeq tbl req calls) req.serviceTag = 1 ∧
    ((enrollSeq tbl req calls).map Machine.id).Nodup := by
  induction calls with
  | nil => intro tbl hn hc; exact ⟨hc, hn⟩
  | cons c rest ih =>
    intro tbl hn hc
    obtain ⟨hc', hn'⟩ := handleEnroll_table_inv hv hn hc c.1 c.2
    exact ih _ hn' hc'

theorem newMachine_count (req : EnrollmentRequest) (fid : String) (t : Nat) :
    countByTag [newMachine req fid t] req.serviceTag = 1 := by
  simp [countByTag, newMachine, List.filter]

/-- **C1, counterexample.**  Two successive `POST /enroll` calls with the
same payload (`service_tag = "SVC-1"`), the first at clock 3 (creating the
row), the second at clock 5.  The second call rewrites the stored row's
`updated_at` from 3 to 5, so the handler does not update *only*
`last_seen_at` as the claim states. -/
theorem enroll_updates_more_than_lastSeen_cex :
    ((getMachineByServiceTag
        (handleEnroll (handleEnroll [] ⟨"SVC-1", "aa:bb", "hw"⟩ "id-1" 3).table
          ⟨"SVC-1", "aa:bb", "hw"⟩ "id-2" 5).table "SVC-1").map Machine.updatedAt
      = some 5) ∧
    ((getMachineByServiceTag (handleEnroll [] ⟨"SVC-1", "aa:bb", "hw"⟩ "id-1" 3).table
        "SVC-1").map Machine.updatedAt = some 3) ∧
    (5 : Nat) ≠ 3 := by decide

/-- **C1 (amended).**  Enrollment is idempotent by service tag: any number
of successive `POST /enroll` calls with one payload leaves exactly one row
with that tag; when the tag already exists the handler updates only its
`last_seen_at` *and the bookkeeping `updated_at`* (the stored and returned
row is the existing one with exactly those two fields re-stamped) and
answers 200; when the tag is absent it inserts a fresh row with
`status = enrolled` and the fresh id and answers 201; and across two
successive calls at non-decreasing clocks the stored `last_seen_at` is
non-decreasing. -/
theorem enroll_idempotent_by_service_tag (req : EnrollmentRequest)
    (hv : req.serviceTag ≠ "" ∧ req.macAddress ≠ "") :
    (∀ fid t calls,
      countByTag (enrollSeq [] req ((fid, t) :: calls)) req.serviceTag = 1) ∧
    (∀ tbl m fid t, (tbl.map Machine.id).Nodup →
      getMachineByServiceTag tbl req.serviceTag = some m →
      (handleEnroll tbl req fid t).httpStatus = 200 ∧
      (handleEnroll tbl req fid t).body
          = some { m with lastSeenAt := some t, updatedAt := t } ∧
      getMachineByServiceTag (handleEnroll tbl req fid t).table req.serviceTag
          = some { m with lastSeenAt := some t, updatedAt := t }) ∧
    (∀ tbl fid t, getMachineByServiceTag tbl req.serviceTag = none →
      (handleEnroll tbl req fid t).httpStatus = 201 ∧
      (handleEnroll tbl req fid t).body = some (newMachine req fid t) ∧
      (newMachine req fid t).id = fid ∧
      (newMachine req fid t).status = .enrolled) ∧
    (∀ tbl fid₁ t₁ fid₂ t₂ m₂, (tbl.map Machine.id).Nodup →
      fid₁ ∉ tbl.map Machine.id → t₁ ≤ t₂ →
      getMachineByServiceTag
          (handleEnroll (handleEnroll tbl req fid₁ t₁).table req fid₂ t₂).table
          req.serviceTag = some m₂ →
      m₂.lastSeenAt = some t₂ ∧ t₁ ≤ t₂) := by
  refine ⟨?_, ?_, ?_, ?_⟩
  · intro fid t calls
    have h0 : getMachineByServiceTag [] req.serviceTag = none := rfl
    have hstep : enrollSeq [] req ((fid, t) :: calls)
        = enrollSeq [newMachine req fid t] req calls := by
      show enrollSeq (handleEnroll [] req fid t).table req calls = _
      rw [handleEnroll_create hv h0]
      simp
    rw [hstep]
    exact (enrollSeq_inv hv calls _ (by simp) (newMachine_count req fid t)).1
  · intro tbl m fid t hn hfind
    rw [handleEnroll_update hv hfind]
    obtain ⟨hfind', -⟩ := updateMachineDB_find_count { m with lastSeenAt := some t } t hn hfind rfl rfl
    exact ⟨rfl, rfl, hfind'⟩
  · intro tbl fid t hfind
    rw [handleEnroll_create hv hfind]
    exact ⟨rfl, rfl, rfl, rfl⟩
  · intro tbl fid₁ t₁ fid₂ t₂ m₂ hn hfresh hle hfind2
    cases hf : getMachineByServiceTag tbl req.serviceTag with
    | some m =>
      rw [handleEnroll_update hv hf] at hfind2
      obtain ⟨hfind1, -⟩ := updateMachineDB_find_count
        { m with lastSeenAt := some t₁ } t₁ hn hf rfl rfl
      have hn1 : ((updateMachineDB tbl { m with lastSeenAt := some t₁ } t₁).map
          Machine.id).Nodup := by rw [updateMachineDB_map_id]; exact hn
      rw [handleEnroll_update hv hfind1] at hfind2
      obtain ⟨hfind2', -⟩ := updateMachineDB_find_count
        { { m with lastSeenAt := some t₁, updatedAt := t₁ } with
          lastSeenAt := some t₂ } t₂ hn1 hfind1 rfl rfl
      rw [hfind2'] at hfind2
      have := Option.some_inj.mp hfind2
      exact ⟨by rw [← this], hle⟩
    | none =>
      rw [handleEnroll_create hv hf] at hfind2
      have hfind1 : getMachineByServiceTag (tbl ++ [newMachine req fid₁ t₁])
          req.serviceTag = some (newMachine req fid₁ t₁) := by
        rw [find_tag_append_none hf]
        unfold getMachineByServiceTag
        rw [List.find?_cons_of_pos _ (by simp [newMachine])]
      have hn1 : ((tbl ++ [newMachine req fid₁ t₁]).map Machine.id).Nodup := by
        rw [List.map_append, List.nodup_append]
        refine ⟨hn, by simp [newMachine], ?_⟩
        intro x hx
        simp only [List.map_cons, List.map_nil, List.mem_singleton]
        intro hc
        rw [hc] at hx
        exact hfresh hx
      rw [handleEnroll_update hv hfind1] at hfind2
      obtain ⟨hfind2', -⟩ := updateMachineDB_find_count
        { newMachine req fid₁ t₁ with lastSeenAt := some t₂ } t₂ hn1 hfind1 rfl rfl
      rw [hfind2'] at hfind2
      have := Option.some_inj.mp hfind2
      exact ⟨by rw [← this], hle⟩

/-- Witness for the amended C1 theorem at a concrete payload. -/
theorem enroll_idempotent_by_service_tag_witness :
    ("SVC-1" : String) ≠ "" ∧ ("aa:bb" : String) ≠ "" ∧
    countByTag (enrollSeq [] ⟨"SVC-1", "aa:bb", "hw"⟩ [("id-1", 3), ("id-2", 5)])
      "SVC-1" = 1 ∧
    (handleEnroll [] ⟨"SVC-1", "aa:bb", "hw"⟩ "id-1" 3).httpStatus = 201 := by
  refine ⟨by decide, by decide, ?_, ?_⟩
  · exact (enroll_idempotent_by_service_tag ⟨"SVC-1", "aa:bb", "hw"⟩
      ⟨by decide, by decide⟩).1 "id-1" 3 [("id-2", 5)]
  · exact ((enroll_idempotent_by_service_tag ⟨"SVC-1", "aa:bb", "hw"⟩
      ⟨by decide, by decide⟩).2.2.1 [] "id-1" 3 rfl).1

/-! ## `PUT /machines/{id}` (claim C6) -/

/-- Request body of `PUT /machines/{id}`, decoded into `models.Machine`
(Go zero values: absent string fields decode to `""`, absent `bmc_info`
to a nil pointer). -/
structure UpdateRequest where
  hostname : String
  description : String
  nixosConfig : String
  bmcInfo : Option BMCInfo
deriving DecidableEq, Repr

/-- The field-patch block of `handleUpdateMachine`: copies
hostname/description when non-empty, copies `nixos_config` when non-empty
and then forces `status = configured`.  The decoded `bmc_info` is never
read by the handler. -/
def applyMachineUpdate (m : Machine) (upd : UpdateRequest) : Machine :=
  let m1 := if upd.hostname ≠ "" then { m with hostname := upd.hostname } else m
  let m2 := if upd.description ≠ "" then { m1 with description := upd.description } else m1
  if upd.nixosConfig ≠ "" then
    { m2 with nixosConfig := upd.nixosConfig, status := .configured }
  else m2

/-- Observable result of one `PUT /machines/{id}` call. -/
structure UpdateResult where
  table : List Machine
  httpStatus : Nat
  body : Option Machine
deriving DecidableEq, Repr

/-- `handleUpdateMachine`: 404 for an unknown id, otherwise patch the
row (see `applyMachineUpdate`) and write it back with `UpdateMachine`
(which stamps `updated_at`), answering 200 with the patched record. -/
def handleUpdateMachine (tbl : List Machine) (i : String)
    (upd : UpdateRequest) (now : Nat) : UpdateResult :=
  match getMachineById tbl i with
  | none => { table := tbl, httpStatus := 404, body := none }
  | some m =>
      let m' := applyMachineUpdate m upd
      { table := updateMachineDB tbl m' now
        httpStatus := 200
        body := some { m' with updatedAt := now } }

/-- A concrete machine without BMC configuration. -/
def machineNoBMC : Machine :=
  { id := "m-1", serviceTag := "SVC-1", macAddress := "aa:bb"
    status := .enrolled, hostname := "", description := "", hardware := "hw"
    nixosConfig := "", lastBuildId := none, lastBuildTime := none
    bmcInfo := none, enrolledAt := 1, updatedAt := 1, lastSeenAt := none }

/-- A concrete `PUT` body that carries only `bmc_info` (as the README's
"Configure BMC" example does). -/
def bmcOnlyUpdate : UpdateRequest :=
  { hostname := "", description := "", nixosConfig := ""
    bmcInfo := some ⟨"10.0.0.100", "admin", "password", "IPMI", 623, true⟩ }

/-- **C6.**  `PUT /machines/{id}` never stores `bmc_info`: the patch block
leaves the machine's BMC configuration untouched for every body, and in
particular the README's "Configure BMC" request (a body carrying only a
non-empty enabled `bmc_info`) leaves the stored machine without BMC
configuration.  The three string fields are patched as claimed. -/
theorem handleUpdateMachine_ignores_bmcInfo :
    (∀ m upd, (applyMachineUpdate m upd).bmcInfo = m.bmcInfo) ∧
    ((handleUpdateMachine [machineNoBMC] "m-1" bmcOnlyUpdate 7).body.map
        Machine.bmcInfo = some none) ∧
    bmcOnlyUpdate.bmcInfo
      = some ⟨"10.0.0.100", "admin", "password", "IPMI", 623, true⟩ ∧
    (∀ m upd, upd.hostname ≠ "" → (applyMachineUpdate m upd).hostname = upd.hostname) ∧
    (∀ m upd, upd.nixosConfig ≠ "" →
      (applyMachineUpdate m upd).nixosConfig = upd.nixosConfig ∧
      (applyMachineUpdate m upd).status = .configured) := by
  refine ⟨?_, by decide, by decide, ?_, ?_⟩
  · intro m upd
    unfold applyMachineUpdate
    split <;> split <;> split <;> rfl
  · intro m upd h
    unfold applyMachineUpdate
    rw [if_pos h]
    split <;> split <;> rfl
  · intro m upd h
    unfold applyMachineUpdate
    rw [if_pos h]
    exact ⟨rfl, rfl⟩

/-- Witness for `handleUpdateMachine_ignores_bmcInfo` at a concrete
machine and body. -/
theorem handleUpdateMachine_ignores_bmcInfo_witness :
    ("cfg" : String) ≠ "" ∧
    (applyMachineUpdate machineNoBMC
      { hostname := "", description := "", nixosConfig := "cfg", bmcInfo := none }).status
      = .configured :=
  ⟨by decide,
   (handleUpdateMachine_ignores_bmcInfo.2.2.2.2 machineNoBMC
      { hostname := "", description := "", nixosConfig := "cfg", bmcInfo := none }
      (by decide)).2⟩

/-! ## `POST /machines/{id}/build` (claim C4) -/

/-- Build record, from `models.BuildRequest`. -/
structure Build where
  id : String
  machineId : String
  status : String
  config : String
  logOutput : String
  error : String
  artifactUrl : String
  createdAt : Nat
  completedAt : Option Nat
deriving DecidableEq, Repr

/-- `database.CreateBuild`: unconditionally INSERT a fresh `pending` build
carrying a snapshot of the configuration; there is no check for builds
already in flight for the machine. -/
def createBuild (builds : List Build) (machineId config freshId : String)
    (now : Nat) : List Build × Build :=
  let b : Build :=
    { id := freshId, machineId := machineId, status := "pending"
      config := config, logOutput := "", error := "", artifactUrl := ""
      createdAt := now, completedAt := none }
  (builds ++ [b], b)

/-- The machines table together with the builds table. -/
structure ApiState where
  machines : List Machine
  builds : List Build
deriving DecidableEq, Repr

/-- Observable result of one `POST /machines/{id}/build` call. -/
structure BuildCallResult where
  state : ApiState
  httpStatus : Nat
  body : Option Build
deriving DecidableEq, Repr

/-- `handleBuildMachine`: 404 for an unknown id, 400 when the machine has
no configuration, otherwise create a pending build, set the machine to
`status = building` with `last_build_id`, and answer 201 with the new
build. -/
def handleBuildMachine (st : ApiState) (i freshBuildId : String)
    (now : Nat) : BuildCallResult :=
  match getMachineById st.machines i with
  | none => { state := st, httpStatus := 404, body := none }
  | some m =>
      if m.nixosConfig == "" then { state := st, httpStatus := 400, body := none }
      else
        let p := createBuild st.builds m.id m.nixosConfig freshBuildId now
        let m' := { m with status := .building, lastBuildId := some p.2.id }
        { state := { machines := updateMachineDB st.machines m' now, builds := p.1 }
          httpStatus := 201
          body := some p.2 }

/-- Number of builds for a machine whose status is `pending` or
`building`. -/
def inFlightBuilds (builds : List Build) (machineId : String) : Nat :=
  (builds.filter (fun b =>
    b.machineId == machineId && (b.status == "pending" || b.status == "building"))).length

/-- A concrete configured machine. -/
def machineConfigured : Machine :=
  { id := "m-1", serviceTag := "SVC-1", macAddress := "aa:bb"
    status := .configured, hostname := "node1", description := "", hardware := "hw"
    nixosConfig := "cfg", lastBuildId := none, lastBuildTime := none
    bmcInfo := none, enrolledAt := 1, updatedAt := 1, lastSeenAt := none }

/-- **C4, counterexample.**  Two successive `POST /machines/{id}/build`
calls for the same configured machine both succeed and leave two builds
in status `pending` for it: the claimed at-most-one-in-flight invariant
does not hold in the reachable state after the second call. -/
theorem build_invariant_cex :
    inFlightBuilds
      (handleBuildMachine
        (handleBuildMachine ⟨[machineConfigured], []⟩ "m-1" "b-1" 4).state
        "m-1" "b-2" 5).state.builds "m-1" = 2 ∧
    ¬ (inFlightBuilds
      (handleBuildMachine
        (handleBuildMachine ⟨[machineConfigured], []⟩ "m-1" "b-1" 4).state
        "m-1" "b-2" 5).state.builds "m-1" ≤ 1) := by decide

/-- **C4 (amended).**  `POST /machines/{id}/build` does not enforce any
in-flight uniqueness: for every state and every machine that exists and
has a configuration, the call succeeds with 201, returns a fresh
`pending` build snapshotting the machine's configuration, and increases
the number of the machine's pending-or-building builds by exactly one —
so repeated calls accumulate concurrently pending builds. -/
theorem handleBuildMachine_adds_pending (st : ApiState) (i fid : String)
    (now : Nat) (m : Machine)
    (hfind : getMachineById st.machines i = some m)
    (hcfg : m.nixosConfig ≠ "") :
    (handleBuildMachine st i fid now).httpStatus = 201 ∧
    (handleBuildMachine st i fid now).body
      = some { id := fid, machineId := m.id, status := "pending"
               config := m.nixosConfig, logOutput := "", error := ""
               artifactUrl := "", createdAt := now, completedAt := none } ∧
    inFlightBuilds (handleBuildMachine st i fid now).state.builds m.id
      = inFlightBuilds st.builds m.id + 1 := by
  have hcfg' : ¬ ((m.nixosConfig == "") = true) := by simp [hcfg]
  have hstep : handleBuildMachine st i fid now
      = (let p := createBuild st.builds m.id m.nixosConfig fid now
         let m' := { m with status := .building, lastBuildId := some p.2.id }
         ({ state := { machines := updateMachineDB st.machines m' now, builds := p.1 }
            httpStatus := 201, body := some p.2 } : BuildCallResult)) := by
    unfold handleBuildMachine
    rw [hfind]
    exact if_neg hcfg'
  rw [hstep]
  refine ⟨rfl, rfl, ?_⟩
  unfold inFlightBuilds createBuild
  rw [List.filter_append, List.length_append]
  simp

/-- Witness for `handleBuildMachine_adds_pending` at a concrete state. -/
theorem handleBuildMachine_adds_pending_witness :
    getMachineById [machineConfigured] "m-1" = some machineConfigured ∧
    machineConfigured.nixosConfig ≠ "" ∧
    (handleBuildMachine ⟨[machineConfigured], []⟩ "m-1" "b-1" 4).httpStatus = 201 :=
  ⟨by decide, by decide,
   (handleBuildMachine_adds_pending ⟨[machineConfigured], []⟩ "m-1" "b-1" 4
      machineConfigured (by decide) (by decide)).1⟩

/-! ## `POST /machines/{id}/power` (claim C7) -/

/-- Power-operation record, from `models.PowerOperation`. -/
structure PowerOperation where
  id : String
  machineId : String
  operation : String
  status : String
  result : String
  error : String
  initiatedBy : String
  createdAt : Nat
  completedAt : Option Nat
deriving DecidableEq, Repr

/-- Observable outcome of the synchronous part of `handlePowerControl`. -/
inductive PowerControlOutcome
  | notFound
  | bmcNotConfigured
  | created (op : PowerOperation)
deriving DecidableEq, Repr

/-- `handlePowerControl` (synchronous part): 404 for an unknown machine,
400 without creating any row when `bmc_info` is nil — the handler checks
only presence, not `enabled` — and otherwise it inserts a `pending`
`PowerOperation` row and answers with it at once; the driver runs in a
spawned task afterwards. -/
def handlePowerControl (mres : Option Machine) (operation userId freshId : String)
    (now : Nat) : PowerControlOutcome :=
  match mres with
  | none => .notFound
  | some m =>
      match m.bmcInfo with
      | none => .bmcNotConfigured
      | some _ =>
          .created { id := freshId, machineId := m.id, operation := operation
                     status := "pending", result := "", error := ""
                     initiatedBy := userId, createdAt := now, completedAt := none }

/-- Result of the external management tool, opaque to this model. -/
inductive DriverOutcome
  | ok (output : String)
  | err (msg : String)
deriving DecidableEq, Repr

/-- `ipmi.ExecutePowerOperation` up to the external call: reject nil BMC
info, disabled BMC, and an empty BMC address with fixed error strings;
otherwise defer to the external tool's outcome. -/
def executePowerOperation (bmc : Option BMCInfo) (ext : DriverOutcome) : DriverOutcome :=
  match bmc with
  | none => .err "BMC info is required"
  | some b =>
      if b.enabled = false then .err "BMC is not enabled for this machine"
      else if b.ipAddress == "" then .err "BMC IP address is required"
      else ext

/-- The write-back performed by the spawned task when the driver call
finishes: stamp `completed_at` and either `success`+result or
`failed`+error. -/
def completePowerOperation (op : PowerOperation) (driver : DriverOutcome)
    (now : Nat) : PowerOperation :=
  match driver with
  | .ok out => { op with status := "success", result := out, completedAt := some now }
  | .err msg => { op with status := "failed", error := msg, completedAt := some now }

/-- A concrete machine whose BMC configuration has `enabled = false`. -/
def machineBMCDisabled : Machine :=
  { machineConfigured with
    id := "m-2", serviceTag := "SVC-2"
    bmcInfo := some ⟨"10.0.0.9", "admin", "pw", "IPMI", 623, false⟩ }

/-- **C7, counterexample.**  For a machine whose `bmc_info` has
`enabled = false` the handler is NOT rejected without a row: it creates
and returns a `pending` `PowerOperation` row (the `enabled` flag is only
checked later, inside the asynchronous driver call). -/
theorem power_disabled_bmc_creates_row_cex :
    handlePowerControl (some machineBMCDisabled) "on" "u-1" "op-1" 9
      = .created { id := "op-1", machineId := "m-2", operation := "on"
                   status := "pending", result := "", error := ""
                   initiatedBy := "u-1", createdAt := 9, completedAt := none } ∧
    (machineBMCDisabled.bmcInfo.map BMCInfo.enabled = some false) ∧
    handlePowerControl (some machineBMCDisabled) "on" "u-1" "op-1" 9
      ≠ .bmcNotConfigured := by decide

/-- **C7 (amended).**  `POST /machines/{id}/power` requires only the
*presence* of `bmc_info`: a machine without it is rejected with 400 and
no row; any machine with `bmc_info` — enabled or not — gets a `pending`
`PowerOperation` row created and returned synchronously, the driver
outcome is written back (status, result/error, `completed_at`) only by
the asynchronous completion, and when `enabled = false` that completion
marks the row `failed` with the driver's "BMC is not enabled for this
machine" error. -/
theorem power_control_row_lifecycle (m : Machine) (operation u fid : String) (t : Nat) :
    (m.bmcInfo = none →
      handlePowerControl (some m) operation u fid t = .bmcNotConfigured) ∧
    (∀ b, m.bmcInfo = some b →
      handlePowerControl (some m) operation u fid t
        = .created { id := fid, machineId := m.id, operation := operation
                     status := "pending", result := "", error := ""
                     initiatedBy := u, createdAt := t, completedAt := none } ∧
      (∀ ext t₂, (completePowerOperation
          { id := fid, machineId := m.id, operation := operation
            status := "pending", result := "", error := ""
            initiatedBy := u, createdAt := t, completedAt := none }
          (executePowerOperation m.bmcInfo ext) t₂).completedAt = some t₂) ∧
      (b.enabled = false → ∀ ext t₂,
        completePowerOperation
          { id := fid, machineId := m.id, operation := operation
            status := "pending", result := "", error := ""
            initiatedBy := u, createdAt := t, completedAt := none }
          (executePowerOperation m.bmcInfo ext) t₂
        = { id := fid, machineId := m.id, operation := operation
            status := "failed", result := ""
            error := "BMC is not enabled for this machine"
            initiatedBy := u, createdAt := t, completedAt := some t₂ })) := by
  constructor
  · intro h
    simp only [handlePowerControl, h]
  · intro b hb
    refine ⟨?_, ?_, ?_⟩
    · simp only [handlePowerControl, hb]
    · intro ext t₂
      unfold completePowerOperation
      cases executePowerOperation m.bmcInfo ext <;> rfl
    · intro hdis ext t₂
      simp only [executePowerOperation, hb, if_pos hdis]
      rfl

/-- Witness for `power_control_row_lifecycle` at a concrete machine. -/
theorem power_control_row_lifecycle_witness :
    machineBMCDisabled.bmcInfo = some ⟨"10.0.0.9", "admin", "pw", "IPMI", 623, false⟩ ∧
    handlePowerControl (some machineBMCDisabled) "on" "u-1" "op-1" 9
      = .created { id := "op-1", machineId := "m-2", operation := "on"
                   status := "pending", result := "", error := ""
                   initiatedBy := "u-1", createdAt := 9, completedAt := none } :=
  ⟨by decide,
   ((power_control_row_lifecycle machineBMCDisabled "on" "u-1" "op-1" 9).2
      ⟨"10.0.0.9", "admin", "pw", "IPMI", 623, false⟩ (by decide)).1⟩

/-! ## Chain-boot dispatcher (claim C2) -/

/-- The registration boot script, as `text/template` renders
`defaultIPXEScript` in `cmd/ipxe-server`. -/
def registrationScript (tag baseURL enrollURL : String) : String :=
  "#!ipxe\n# Registration image for " ++ tag
    ++ "\n# Unknown machine - serving registration image\n\necho Metal Enrollment - Registration Mode\necho Service Tag: "
    ++ tag ++ "\necho ========================================\n\nkernel "
    ++ baseURL
    ++ "/images/registration/bzImage init=/nix/store/HASH-nixos-system-registration/init console=ttyS0,115200 console=tty0 enrollment_url="
    ++ enrollURL ++ "\ninitrd " ++ baseURL ++ "/images/registration/initrd\nboot\n"

/-- The machine-specific boot script, as `text/template` renders
`machineIPXEScript` in `cmd/ipxe-server`. -/
def machineScript (tag host baseURL : String) : String :=
  "#!ipxe\n# Custom image for " ++ tag
    ++ "\n\necho Metal Enrollment - Custom Image\necho Service Tag: " ++ tag
    ++ "\necho Hostname: " ++ host
    ++ "\necho ========================================\n\nkernel " ++ baseURL
    ++ "/images/machines/" ++ tag ++ "/bzImage init=/nix/store/HASH-nixos-system-"
    ++ host ++ "/init console=ttyS0,115200 console=tty0\ninitrd " ++ baseURL
    ++ "/images/machines/" ++ tag ++ "/initrd\nboot\n"

/-- Result of the HTTP GET the dispatcher makes against the API for
`/machines/by-servicetag/{tag}` (a route the API does not even register):
transport failure, or a status code with the raw body. -/
inductive ApiLookup
  | netError
  | response (status : Nat) (body : String)
deriving DecidableEq, Repr

/-- `checkMachine`: transport errors, 404 and any non-200 mean
`(false, "")`; on 200 the body is NOT parsed — the source returns
`(true, "")` under the comment "we will implement full parsing later", so
the reported hostname is always empty. -/
def checkMachine (resp : ApiLookup) : Bool × String :=
  match resp with
  | .netError => (false, "")
  | .response status _ =>
      if status == 404 then (false, "")
      else if status != 200 then (false, "")
      else (true, "")

/-- `handleMachineIPXE`: serve the machine script only when the machine
reportedly exists, its reported hostname is non-empty, and the bzImage
artifact is on disk; otherwise serve the registration script. -/
def handleMachineIPXE (serviceTag : String) (resp : ApiLookup)
    (bzImageExists : Bool) (baseURL enrollURL : String) : String :=
  if (checkMachine resp).1 = true ∧ (checkMachine resp).2 ≠ "" then
    (if bzImageExists = true then machineScript serviceTag (checkMachine resp).2 baseURL
     else registrationScript serviceTag baseURL enrollURL)
  else registrationScript serviceTag baseURL enrollURL

theorem checkMachine_no_hostname (resp : ApiLookup) : (checkMachine resp).2 = "" := by
  cases resp with
  | netError => rfl
  | response status body =>
    show (if (status == 404) = true then ((false, "") : Bool × String)
          else if (status != 200) = true then (false, "") else (true, "")).2 = ""
    by_cases h1 : (status == 404) = true
    · rw [if_pos h1]
    · rw [if_neg h1]
      by_cases h2 : (status != 200) = true
      · rw [if_pos h2]
      · rw [if_neg h2]

/-- **C2.**  The chain-boot dispatcher always serves the registration
script: `checkMachine` never reports a hostname (the 200 branch returns
`(true, "")` without parsing the body), so the machine-template branch is
unreachable — in particular for an existing machine with hostname
`node1` and the artifact present, where the claim promises the machine
template. -/
theorem ipxe_always_serves_registration :
    (∀ tag resp fileExists baseURL enrollURL,
      handleMachineIPXE tag resp fileExists baseURL enrollURL
        = registrationScript tag baseURL enrollURL) ∧
    handleMachineIPXE "SVC-001" (.response 200 "node1") true "http://b" "http://e"
      = registrationScript "SVC-001" "http://b" "http://e" ∧
    registrationScript "SVC-001" "http://b" "http://e"
      ≠ machineScript "SVC-001" "node1" "http://b" := by
  refine ⟨?_, by decide, by decide⟩
  intro tag resp fileExists baseURL enrollURL
  unfold handleMachineIPXE
  rw [if_neg (fun h => absurd (checkMachine_no_hostname resp) h.2)]

/-! ## Build orchestrator (claim C5) -/

/-- The external effects `processBuild` can observe, as explicit
outcomes: the first `UpdateBuild`, the `GetMachine` query (a database
error, or the row — `none` when `sql.ErrNoRows`), the scratch-directory
creation, the configuration write, the `nix-build` invocation (combined
output plus error), the output-directory creation, and the two artifact
copies.  `none` means the step succeeds; `some e` carries the error
text. -/
structure BuilderEnv where
  updateOk : Bool
  getMachineRes : Except String (Option Machine)
  mkdirErr : Option String
  writeErr : Option String
  nixOutput : String
  nixErr : Option String
  outDirErr : Option String
  copyKernelErr : Option String
  copyInitrdErr : Option String

/-- How one run of `processBuild` ends: an early bare `return` (first
status write failed), a runtime panic of the worker goroutine (nil
`*models.Machine` dereference), or a normal return carrying the final
build record together with the machine status written back (if any). -/
inductive ProcResult
  | earlyReturn
  | panicked
  | finished (b : Build) (machineStatusWrite : Option MachineStatus)
deriving DecidableEq, Repr

/-- `failBuild`: mark the build failed with the message and a completion
stamp, then fetch the machine again and — whenever the query itself did
not error — write `machine.Status = failed` through the nil-unchecked
pointer (a `GetMachine` miss gives `err = nil, machine = nil`, so the
status write dereferences nil and panics). -/
def failBuild (env : BuilderEnv) (b : Build) (msg : String) (now : Nat) : ProcResult :=
  let b1 := { b with status := "failed", error := msg, completedAt := some now }
  match env.getMachineRes with
  | .error _ => .finished b1 none
  | .ok none => .panicked
  | .ok (some _) => .finished b1 (some .failed)

/-- `processBuild`: flip the build to `building`, fetch the machine, make
the scratch directory, write `configuration.nix`, run the builder, copy
the two artifacts, and on full success publish the artifact URL and mark
the machine ready.  The machine pointer is dereferenced (for the
"Building NixOS system for ..." log line) immediately after the config
write — before any nil check. -/
def processBuild (env : BuilderEnv) (b0 : Build) (now : Nat) : ProcResult :=
  let b := { b0 with status := "building" }
  if env.updateOk = false then .earlyReturn
  else
    match env.getMachineRes with
    | .error e => failBuild env b ("Failed to get machine: " ++ e) now
    | .ok mres =>
        match env.mkdirErr with
        | some e => failBuild env b ("Failed to create build directory: " ++ e) now
        | none =>
            match env.writeErr with
            | some e => failBuild env b ("Failed to write config: " ++ e) now
            | none =>
                match mres with
                | none => .panicked
                | some machine =>
                    let b1 := { b with logOutput := env.nixOutput }
                    match env.nixErr with
                    | some e => failBuild env b1 ("Build failed: " ++ e) now
                    | none =>
                        match env.outDirErr with
                        | some e =>
                            failBuild env b1 ("Failed to create output directory: " ++ e) now
                        | none =>
                            match env.copyKernelErr with
                            | some e => failBuild env b1 ("Failed to copy kernel: " ++ e) now
                            | none =>
                                match env.copyInitrdErr with
                                | some e => failBuild env b1 ("Failed to copy initrd: " ++ e) now
                                | none =>
                                    .finished
                                      { b1 with
                                        status := "success",
                                        artifactUrl :=
                                          "/images/machines/" ++ machine.serviceTag,
                                        completedAt := some now }
                                      (some .ready)

/-- An environment in which every external step succeeds but the build's
machine row does not exist (`GetMachine` returns `nil, nil`). -/
def envMissingMachine : BuilderEnv :=
  { updateOk := true, getMachineRes := .ok none, mkdirErr := none
    writeErr := none, nixOutput := "out", nixErr := none, outDirErr := none
    copyKernelErr := none, copyInitrdErr := none }

/-- A concrete pending build referring to machine id `ghost`. -/
def orphanBuild : Build :=
  { id := "b-9", machineId := "ghost", status := "pending", config := "cfg"
    logOutput := "", error := "", artifactUrl := "", createdAt := 2
    completedAt := none }

/-- **C5.**  A pending build whose machine row is missing does NOT end as
a `failed` build: `GetMachine` reports `nil, nil`, the nil check guards
only the query error, and the later `machine.ServiceTag` dereference
panics the worker (shown concretely and for every such environment).
Every *other* failure class of the claim does behave as stated: a
`failed` build carrying the class-specific non-empty error string. -/
theorem processBuild_missing_machine_panics :
    processBuild envMissingMachine orphanBuild 7 = .panicked ∧
    (∀ env b0 now, env.updateOk = true → env.getMachineRes = .ok none →
      env.mkdirErr = none → env.writeErr = none →
      processBuild env b0 now = .panicked) ∧
    (∀ env b0 now e, env.updateOk = true → env.getMachineRes = .error e →
      processBuild env b0 now
        = .finished { b0 with
                        status := "failed",
                        error := "Failed to get machine: " ++ e,
                        completedAt := some now } none) ∧
    (∀ env b0 now e m, env.updateOk = true → env.getMachineRes = .ok (some m) →
      env.mkdirErr = some e →
      processBuild env b0 now
        = .finished { b0 with
                        status := "failed",
                        error := "Failed to create build directory: " ++ e,
                        completedAt := some now } (some .failed)) ∧
    (∀ env b0 now e m, env.updateOk = true → env.getMachineRes = .ok (some m) →
      env.mkdirErr = none → env.writeErr = some e →
      processBuild env b0 now
        = .finished { b0 with
                        status := "failed",
                        error := "Failed to write config: " ++ e,
                        completedAt := some now } (some .failed)) ∧
    (∀ env b0 now e m, env.updateOk = true → env.getMachineRes = .ok (some m) →
      env.mkdirErr = none → env.writeErr = none → env.nixErr = some e →
      processBuild env b0 now
        = .finished { b0 with
                        status := "failed", logOutput := env.nixOutput,
                        error := "Build failed: " ++ e,
                        completedAt := some now } (some .failed)) ∧
    (∀ env b0 now e m, env.updateOk = true → env.getMachineRes = .ok (some m) →
      env.mkdirErr = none → env.writeErr = none → env.nixErr = none →
      env.outDirErr = none → env.copyKernelErr = some e →
      processBuild env b0 now
        = .finished { b0 with
                        status := "failed", logOutput := env.nixOutput,
                        error := "Failed to copy kernel: " ++ e,
                        completedAt := some now } (some .failed)) := by
  refine ⟨rfl, ?_, ?_, ?_, ?_, ?_, ?_⟩
  · intro env b0 now h1 h2 h3 h4
    simp only [processBuild, h1, h2, h3, h4]
    rfl
  · intro env b0 now e h1 h2
    simp only [processBuild, h1, h2, failBuild]
    rfl
  · intro env b0 now e m h1 h2 h3
    simp only [processBuild, h1, h2, h3, failBuild]
    rfl
  · intro env b0 now e m h1 h2 h3 h4
    simp only [processBuild, h1, h2, h3, h4, failBuild]
    rfl
  · intro env b0 now e m h1 h2 h3 h4 h5
    simp only [processBuild, h1, h2, h3, h4, h5, failBuild]
    rfl
  · intro env b0 now e m h1 h2 h3 h4 h5 h6 h7
    simp only [processBuild, h1, h2, h3, h4, h5, h6, h7, failBuild]
    rfl

/-- Witness for `processBuild_missing_machine_panics` at concrete
environments. -/
theorem processBuild_missing_machine_panics_witness :
    envMissingMachine.updateOk = true ∧
    envMissingMachine.getMachineRes = .ok none ∧
    envMissingMachine.mkdirErr = none ∧ envMissingMachine.writeErr = none ∧
    processBuild envMissingMachine orphanBuild 3 = .panicked :=
  ⟨rfl, rfl, rfl, rfl,
   processBuild_missing_machine_panics.2.1 envMissingMachine orphanBuild 3
     rfl rfl rfl rfl⟩

/-! ## Template application (claim C3) -/

/-- Boolean prefix test on character lists. -/
def leadsWith : List Char → List Char → Bool
  | [], _ => true
  | _ :: _, [] => false
  | p :: ps, c :: cs => p == c && leadsWith ps cs

/-- Does `pat` occur as a contiguous substring of `s`? -/
def occursIn (pat : List Char) : List Char → Bool
  | [] => leadsWith pat []
  | c :: rest => leadsWith pat (c :: rest) || occursIn pat rest

/-- Fuel-indexed core of `strings.ReplaceAll` on character lists: scan
left to right, replacing each non-overlapping occurrence of `pat`.  The
fuel only bounds the recursion; `replaceAllL` supplies the string length,
which `replaceAllAux_fuel_irrel` shows is always enough.  (The handler
only ever passes `\x7b\x7bname\x7d\x7d` patterns, never the empty
one.) -/
def replaceAllAux (pat rep : List Char) : Nat → List Char → List Char
  | _, [] => []
  | 0, s => s
  | fuel + 1, c :: rest =>
    if pat ≠ [] ∧ leadsWith pat (c :: rest) = true then
      rep ++ replaceAllAux pat rep fuel (rest.drop (pat.length - 1))
    else c :: replaceAllAux pat rep fuel rest

/-- `strings.ReplaceAll` on character lists. -/
def replaceAllL (pat rep s : List Char) : List Char :=
  replaceAllAux pat rep s.length s

theorem replaceAllAux_fuel_irrel (pat rep : List Char) :
    ∀ f₁ f₂ s, s.length ≤ f₁ → s.length ≤ f₂ →
      replaceAllAux pat rep f₁ s = replaceAllAux pat rep f₂ s := by
  intro f₁
  induction f₁ with
  | zero =>
    intro f₂ s h1 _
    have hs : s = [] := List.eq_nil_of_length_eq_zero (Nat.le_zero.mp h1)
    subst hs
    cases f₂ <;> rfl
  | succ f ih =>
    intro f₂ s h1 h2
    cases s with
    | nil => cases f₂ <;> rfl
    | cons c rest =>
      cases f₂ with
      | zero => simp at h2
      | succ g =>
        show (if pat ≠ [] ∧ leadsWith pat (c :: rest) = true then
                rep ++ replaceAllAux pat rep f (rest.drop (pat.length - 1))
              else c :: replaceAllAux pat rep f rest)
           = (if pat ≠ [] ∧ leadsWith pat (c :: rest) = true then
                rep ++ replaceAllAux pat rep g (rest.drop (pat.length - 1))
              else c :: replaceAllAux pat rep g rest)
        have hr : rest.length ≤ f := by simp only [List.length_cons] at h1; omega
        have hg : rest.length ≤ g := by simp only [List.length_cons] at h2; omega
        have hd : (rest.drop (pat.length - 1)).length ≤ rest.length := by
          rw [List.length_drop]; omega
        by_cases hc : pat ≠ [] ∧ leadsWith pat (c :: rest) = true
        · rw [if_pos hc, if_pos hc, ih _ _ (le_trans hd hr) (le_trans hd hg)]
        · rw [if_neg hc, if_neg hc, ih _ _ hr hg]

theorem replaceAllL_cons (pat rep : List Char) (c : Char) (rest : List Char) :
    replaceAllL pat rep (c :: rest)
      = if pat ≠ [] ∧ leadsWith pat (c :: rest) = true then
          rep ++ replaceAllL pat rep ((c :: rest).drop pat.length)
        else c :: replaceAllL pat rep rest := by
  show (if pat ≠ [] ∧ leadsWith pat (c :: rest) = true then
          rep ++ replaceAllAux pat rep rest.length (rest.drop (pat.length - 1))
        else c :: replaceAllAux pat rep rest.length rest) = _
  by_cases hc : pat ≠ [] ∧ leadsWith pat (c :: rest) = true
  · rw [if_pos hc, if_pos hc]
    have hplen : 0 < pat.length := List.length_pos.mpr hc.1
    have hdrop_eq : (c :: rest).drop pat.length = rest.drop (pat.length - 1) := by
      cases hp : pat.length with
      | zero => omega
      | succ n => simp [List.drop_succ_cons]
    rw [hdrop_eq]
    show _ = rep ++ replaceAllAux pat rep (rest.drop (pat.length - 1)).length
        (rest.drop (pat.length - 1))
    congr 1
    apply replaceAllAux_fuel_irrel
    · rw [List.length_drop]; omega
    · exact le_refl _
  · rw [if_neg hc, if_neg hc]
    rfl

/-- `strings.ReplaceAll` on strings. -/
def replaceAllStr (s pat rep : String) : String :=
  ⟨replaceAllL pat.data rep.data s.data⟩

/-- Substring occurrence on strings. -/
def occursSub (pat s : String) : Bool :=
  occursIn pat.data s.data

/-- The `\x7b\x7bname\x7d\x7d` placeholder for a variable name. -/
def placeholder (k : String) : String :=
  "\x7b\x7b" ++ k ++ "\x7d\x7d"

/-- The per-key `switch` of `handleApplyTemplate`: the machine's hostname
(when non-empty) for `hostname`, the machine's service tag and MAC for
`service_tag`/`mac_address`, the template default for everything else. -/
def resolveTemplateVar (m : Machine) (key dflt : String) : String :=
  if key == "hostname" then (if m.hostname != "" then m.hostname else dflt)
  else if key == "service_tag" then m.serviceTag
  else if key == "mac_address" then m.macAddress
  else dflt

/-- The substitution loop of `handleApplyTemplate`: one
`strings.ReplaceAll` pass per entry of the template's `variables`
mapping (the Go map iteration order is unspecified; the entry order is a
parameter here). -/
def applyTemplateVars (m : Machine) (vars : List (String × String))
    (config : String) : String :=
  vars.foldl
    (fun cfg kv => replaceAllStr cfg (placeholder kv.1) (resolveTemplateVar m kv.1 kv.2))
    config

/-- `handleApplyTemplate`'s configuration computation: no substitution at
all when the template has no `variables` JSON. -/
def applyTemplateConfig (m : Machine) (varsJson : Option (List (String × String)))
    (config : String) : String :=
  match varsJson with
  | none => config
  | some vs => applyTemplateVars m vs config

/-- The rest of `handleApplyTemplate`: store the substituted text, force
`status = configured`, and copy the template's BMC block when the machine
has none. -/
def handleApplyTemplate (m : Machine) (tplConfig : String)
    (varsJson : Option (List (String × String))) (tplBMC : Option BMCInfo) : Machine :=
  let m1 := { m with
              nixosConfig := applyTemplateConfig m varsJson tplConfig,
              status := .configured }
  if tplBMC.isSome && m.bmcInfo.isNone then { m1 with bmcInfo := tplBMC } else m1

theorem replaceAllL_of_not_occurs (pat rep : List Char) :
    ∀ s : List Char, occursIn pat s = false → replaceAllL pat rep s = s := by
  intro s
  induction s with
  | nil => intro _; rfl
  | cons c rest ih =>
    intro hocc
    unfold occursIn at hocc
    rw [Bool.or_eq_false_iff] at hocc
    rw [replaceAllL_cons, if_neg]
    · rw [ih hocc.2]
    · intro hcond
      rw [hocc.1] at hcond
      exact Bool.false_ne_true hcond.2

theorem leadsWith_append_self (p t : List Char) : leadsWith p (p ++ t) = true := by
  induction p with
  | nil => rfl
  | cons a ps ih =>
    rw [List.cons_append]
    unfold leadsWith
    rw [ih]
    simp

theorem replaceAllL_head_occurrence (a : Char) (ps rep t : List Char) :
    replaceAllL (a :: ps) rep ((a :: ps) ++ t) = rep ++ replaceAllL (a :: ps) rep t := by
  rw [List.cons_append, replaceAllL_cons,
      if_pos ⟨List.cons_ne_nil a ps,
        by rw [← List.cons_append]; exact leadsWith_append_self (a :: ps) t⟩,
      ← List.cons_append, List.drop_left]
theorem placeholder_data (k : String) :
    (placeholder k).data = '\x7b' :: '\x7b' :: (k.data ++ ['\x7d', '\x7d']) := by
  show (("\x7b\x7b" ++ k) ++ "\x7d\x7d").data = _
  rw [String.data_append, String.data_append]
  show (('\x7b' :: '\x7b' :: []) ++ k.data) ++ ('\x7d' :: '\x7d' :: []) = _
  simp

/-- **C3, counterexample.**  A template whose `variables` mapping does not
carry the key `service_tag` leaves `\x7b\x7bservice_tag\x7d\x7d` literal
in the applied configuration — both with an unrelated variable and with an
empty mapping — although the machine's service tag is `SVC-1` and the
claim says every such placeholder is replaced by it. -/
theorem template_special_name_left_literal_cex :
    applyTemplateConfig machineConfigured (some [("foo", "bar")])
        "tag=\x7b\x7bservice_tag\x7d\x7d"
      = "tag=\x7b\x7bservice_tag\x7d\x7d" ∧
    applyTemplateConfig machineConfigured (some [])
        "tag=\x7b\x7bservice_tag\x7d\x7d"
      = "tag=\x7b\x7bservice_tag\x7d\x7d" ∧
    machineConfigured.serviceTag = "SVC-1" ∧
    ("tag=\x7b\x7bservice_tag\x7d\x7d" : String) ≠ "tag=" ++ machineConfigured.serviceTag := by
  refine ⟨?_, rfl, rfl, by decide⟩
  decide

/-- **C3 (amended).**  Template substitution is driven solely by the keys
of the template's `variables` mapping: a placeholder whose name is not a
key of the mapping is not a substitution target (a configuration none of
whose mapped placeholders occur — in particular under an absent or empty
mapping — is stored verbatim, the three machine-derived names included);
for a key `k` of the mapping, an occurrence of `\x7b\x7bk\x7d\x7d` is
replaced by the machine's hostname (falling back to the default when
empty) / service tag / MAC address for the three special names and by the
mapping's default for every other name. -/
theorem template_substitution_mapping_driven :
    (∀ m vs config,
      (∀ kv ∈ vs, occursSub (placeholder kv.1) config = false) →
      applyTemplateVars m vs config = config) ∧
    (∀ m config, applyTemplateConfig m none config = config) ∧
    (∀ m k d tail, applyTemplateVars m [(k, d)] (placeholder k ++ tail)
      = resolveTemplateVar m k d
          ++ replaceAllStr tail (placeholder k) (resolveTemplateVar m k d)) ∧
    (∀ m d, m.hostname ≠ "" → resolveTemplateVar m "hostname" d = m.hostname) ∧
    (∀ m d, m.hostname = "" → resolveTemplateVar m "hostname" d = d) ∧
    (∀ m d, resolveTemplateVar m "service_tag" d = m.serviceTag) ∧
    (∀ m d, resolveTemplateVar m "mac_address" d = m.macAddress) ∧
    (∀ m k d, k ≠ "hostname" → k ≠ "service_tag" → k ≠ "mac_address" →
      resolveTemplateVar m k d = d) := by
  refine ⟨?_, fun m config => rfl, ?_, ?_, ?_, ?_, ?_, ?_⟩
  · intro m vs
    induction vs with
    | nil => intro config _; rfl
    | cons kv rest ih =>
      intro config h
      show applyTemplateVars m rest
        (replaceAllStr config (placeholder kv.1) (resolveTemplateVar m kv.1 kv.2)) = config
      have h0 : replaceAllStr config (placeholder kv.1)
          (resolveTemplateVar m kv.1 kv.2) = config := by
        show String.mk (replaceAllL (placeholder kv.1).data
          (resolveTemplateVar m kv.1 kv.2).data config.data) = config
        rw [replaceAllL_of_not_occurs _ _ _ (h kv (List.mem_cons_self kv rest))]
      rw [h0]
      exact ih config (fun x hx => h x (List.mem_cons_of_mem kv hx))
  · intro m k d tail
    show replaceAllStr (placeholder k ++ tail) (placeholder k)
        (resolveTemplateVar m k d) = _
    show String.mk (replaceAllL (placeholder k).data (resolveTemplateVar m k d).data
        (placeholder k ++ tail).data)
      = String.mk ((resolveTemplateVar m k d).data
          ++ replaceAllL (placeholder k).data (resolveTemplateVar m k d).data tail.data)
    congr 1
    rw [String.data_append, placeholder_data]
    exact replaceAllL_head_occurrence _ _ _ _
  · intro m d h
    simp [resolveTemplateVar, h]
  · intro m d h
    simp [resolveTemplateVar, h]
  · intro m d
    simp [resolveTemplateVar]
  · intro m d
    simp [resolveTemplateVar]
  · intro m k d h1 h2 h3
    simp [resolveTemplateVar, h1, h2, h3]

/-- Witness for `template_substitution_mapping_driven` at a concrete
machine, mapping and configuration. -/
theorem template_substitution_mapping_driven_witness :
    (∀ kv ∈ [("x", "y")], occursSub (placeholder kv.1) "plain" = false) ∧
    applyTemplateVars machineConfigured [("x", "y")] "plain" = "plain" ∧
    machineConfigured.hostname ≠ "" ∧
    resolveTemplateVar machineConfigured "hostname" "dflt" = machineConfigured.hostname :=
  ⟨by decide,
   template_substitution_mapping_driven.1 machineConfigured [("x", "y")] "plain" (by decide),
   by decide,
   template_substitution_mapping_driven.2.2.2.1 machineConfigured "dflt" (by decide)⟩

/-! ## Webhook dispatch (claims C8, C9, C10) -/

/-- Webhook configuration, from `models.Webhook` (custom headers kept as
their decoded key/value pairs). -/
structure Webhook where
  id : String
  name : String
  url : String
  events : List String
  secret : String
  active : Bool
  headers : List (String × String)
  timeout : Nat
  maxRetries : Nat
deriving DecidableEq, Repr

/-- `database.GetWebhooksByEvent`: the SQL keeps active webhooks, the Go
scan then keeps those whose decoded events list contains the event name
or `"*"`.  (The sqlite-only `json_array_length(events) > 0` guard drops
only rows the scan would drop anyway.) -/
def getWebhooksByEvent (whs : List Webhook) (event : String) : List Webhook :=
  (whs.filter (fun w => w.active)).filter
    (fun w => w.events.any (fun e => e == event || e == "*"))

/-- `TriggerEvent` marshals the event envelope once and hands the same
bytes to every matched webhook's delivery task. -/
def triggerEventDeliveries (whs : List Webhook) (event : String)
    (payload : String) : List (Webhook × String) :=
  (getWebhooksByEvent whs event).map (fun w => (w, payload))

/-- One HTTP attempt's outcome: a transport error or a response. -/
inductive AttemptResult
  | netErr (msg : String)
  | http (status : Nat) (body : String)
deriving DecidableEq, Repr

/-- A 2xx response, the loop's success criterion. -/
def is2xx : AttemptResult → Prop
  | .http s _ => 200 ≤ s ∧ s < 300
  | .netErr _ => False

instance (r : AttemptResult) : Decidable (is2xx r) := by
  cases r with
  | netErr m => exact isFalse (fun h => h)
  | http s b => exact instDecidableAnd

/-- Mutable state of `sendWebhook`'s retry loop (the delivery row fields
it writes, the `lastErr` variable, and the sleeps performed). -/
structure LoopState where
  attempts : Nat
  statusCode : Nat
  response : String
  success : Bool
  lastErr : String
  sleeps : List Nat
deriving DecidableEq, Repr

/-- `fmt.Errorf("HTTP %d: %s", ...)`. -/
def httpErrString (status : Nat) (body : String) : String :=
  "HTTP " ++ toString status ++ ": " ++ body

/-- The loop `for attempt := 1; attempt <= maxRetries; attempt++`: each
round sets `delivery.Attempts = attempt`; a transport error or a non-2xx
response records the error and sleeps `attempt` seconds when further
attempts remain; a 2xx response records success and breaks. -/
def webhookAttempts (resp : Nat → AttemptResult) (maxR : Nat) :
    Nat → Nat → LoopState → LoopState
  | _, 0, st => st
  | attempt, r + 1, st =>
    match resp attempt with
    | .netErr msg =>
        webhookAttempts resp maxR (attempt + 1) r
          { st with
            attempts := attempt,
            lastErr := msg,
            sleeps := if attempt < maxR then st.sleeps ++ [attempt] else st.sleeps }
    | .http status body =>
        if 200 ≤ status ∧ status < 300 then
          { st with
            attempts := attempt, statusCode := status,
            response := body, success := true }
        else
          webhookAttempts resp maxR (attempt + 1) r
            { st with
              attempts := attempt, statusCode := status, response := body,
              lastErr := httpErrString status body,
              sleeps := if attempt < maxR then st.sleeps ++ [attempt] else st.sleeps }

/-- `maxRetries := webhook.MaxRetries; if 0 then 3`. -/
def effectiveMaxRetries (w : Webhook) : Nat :=
  if w.maxRetries == 0 then 3 else w.maxRetries

/-- `timeout := webhook.Timeout seconds; if 0 then 30s`. -/
def effectiveTimeout (w : Webhook) : Nat :=
  if w.timeout == 0 then 30 else w.timeout

/-- Delivery record, from `models.WebhookDelivery`. -/
structure WebhookDelivery where
  webhookId : String
  event : String
  payload : String
  statusCode : Nat
  response : String
  error : String
  attempts : Nat
  success : Bool
  completedAt : Option Nat
deriving DecidableEq, Repr

/-- Which webhook timestamp `UpdateWebhookDeliveryStatus` rewrites. -/
inductive StatusWrite
  | lastSuccess
  | lastFailure
deriving DecidableEq, Repr

/-- The zero-valued delivery state the loop starts from. -/
def initLoopState : LoopState :=
  { attempts := 0, statusCode := 0, response := "", success := false
    lastErr := "", sleeps := [] }

/-- The whole retry loop of one `sendWebhook` run. -/
def runAttempts (w : Webhook) (resp : Nat → AttemptResult) : LoopState :=
  webhookAttempts resp (effectiveMaxRetries w) 1 (effectiveMaxRetries w) initLoopState

/-- `sendWebhook`, record-keeping part: run the retry loop, then store
one `WebhookDelivery` row; update `last_success` on success and
`last_failure` on exhaustion.  The row's `event` is `webhook.Events[0]`
(indexing that would panic on an empty list; `getWebhooksByEvent` never
returns one — modelled with `headD`), its `payload` is the fan-out's
marshalled bytes, and `completed_at` is stamped in both outcomes. -/
def sendWebhook (w : Webhook) (payload : String) (resp : Nat → AttemptResult)
    (now : Nat) : WebhookDelivery × StatusWrite × List Nat :=
  ({ webhookId := w.id
     event := w.events.headD ""
     payload := payload
     statusCode := (runAttempts w resp).statusCode
     response := (runAttempts w resp).response
     error := if (runAttempts w resp).success then "" else (runAttempts w resp).lastErr
     attempts := (runAttempts w resp).attempts
     success := (runAttempts w resp).success
     completedAt := some now },
   if (runAttempts w resp).success then StatusWrite.lastSuccess else .lastFailure,
   (runAttempts w resp).sleeps)

theorem webhookAttempts_const_fail (status : Nat) (body : String)
    (hs : ¬ (200 ≤ status ∧ status < 300)) (maxR : Nat) :
    ∀ r attempt st, attempt + r = maxR + 1 → 1 ≤ r →
      webhookAttempts (fun _ => .http status body) maxR attempt r st
        = { attempts := maxR, statusCode := status, response := body,
            success := st.success, lastErr := httpErrString status body,
            sleeps := st.sleeps ++ List.range' attempt (r - 1) } := by
  intro r
  induction r with
  | zero => intro attempt st _ h2; omega
  | succ n ih =>
    intro attempt st heq _
    simp only [webhookAttempts]
    rw [if_neg hs]
    cases n with
    | zero =>
      have ha : attempt = maxR := by omega
      have hlt : ¬ (attempt < maxR) := by omega
      show ({ st with
              attempts := attempt, statusCode := status, response := body,
              lastErr := httpErrString status body,
              sleeps := if attempt < maxR then st.sleeps ++ [attempt] else st.sleeps }
           : LoopState) = _
      rw [if_neg hlt, ha]
      simp [List.range']
    | succ k =>
      have hlt : attempt < maxR := by omega
      rw [ih (attempt + 1) _ (by omega) (by omega)]
      rw [if_pos hlt]
      show ({ attempts := maxR, statusCode := status, response := body,
              success := st.success, lastErr := httpErrString status body,
              sleeps := (st.sleeps ++ [attempt]) ++ List.range' (attempt + 1) (k + 1 - 1) }
           : LoopState) = _
      rw [List.append_assoc, List.singleton_append]
      rw [show (k + 1 + 1 - 1) = k + 1 from rfl, show (k + 1 - 1) = k from rfl]
      rw [List.range'_succ]

theorem webhookAttempts_first_success (resp : Nat → AttemptResult) (maxR k : Nat)
    (hk : k ≤ maxR) (hfail : ∀ i, 1 ≤ i → i < k → ¬ is2xx (resp i))
    (hsucc : is2xx (resp k)) :
    ∀ r attempt st, attempt + r = maxR + 1 → 1 ≤ attempt → attempt ≤ k →
      (webhookAttempts resp maxR attempt r st).success = true ∧
      (webhookAttempts resp maxR attempt r st).attempts = k := by
  intro r
  induction r with
  | zero => intro attempt st heq _ hak; omega
  | succ n ih =>
    intro attempt st heq ha1 hak
    rcases Nat.lt_or_ge attempt k with hlt | hge
    · have hf := hfail attempt ha1 hlt
      cases hr : resp attempt with
      | netErr msg =>
        simp only [webhookAttempts, hr]
        exact ih (attempt + 1) _ (by omega) (by omega) (by omega)
      | http status body =>
        have h2 : ¬ (200 ≤ status ∧ status < 300) := by
          rw [hr] at hf; exact hf
        simp only [webhookAttempts, hr]
        rw [if_neg h2]
        exact ih (attempt + 1) _ (by omega) (by omega) (by omega)
    · have hak' : attempt = k := by omega
      subst hak'
      cases hr : resp attempt with
      | netErr msg => rw [hr] at hsucc; exact absurd hsucc (fun h => h)
      | http status body =>
        rw [hr] at hsucc
        have hs2 : 200 ≤ status ∧ status < 300 := hsucc
        simp only [webhookAttempts, hr]
        rw [if_pos hs2]
        exact ⟨rfl, rfl⟩

theorem effectiveMaxRetries_pos (w : Webhook) (h : 0 < w.maxRetries) :
    effectiveMaxRetries w = w.maxRetries := by
  unfold effectiveMaxRetries
  rw [if_neg]
  simp only [beq_iff_eq]
  omega

/-- **C9.**  Against a target that always answers HTTP 500, the
dispatcher performs exactly `max_retries` attempts, sleeping
`attempt` seconds between consecutive attempts (the sequence
`1, 2, …, max_retries − 1`), and records a delivery row with
`attempts = max_retries`, `success = false`, the final 500 status, a
non-empty error, and a `last_failure` update; when the first 2xx answer
arrives at attempt `k ≤ max_retries`, the run stops with
`success = true`, `attempts = k`, and a `last_success` update. -/
theorem webhook_retry_and_backoff (w : Webhook) (hm : 0 < w.maxRetries)
    (payload : String) (now : Nat) :
    (∀ body,
      (sendWebhook w payload (fun _ => .http 500 body) now).1.attempts = w.maxRetries ∧
      (sendWebhook w payload (fun _ => .http 500 body) now).1.success = false ∧
      (sendWebhook w payload (fun _ => .http 500 body) now).1.statusCode = 500 ∧
      (sendWebhook w payload (fun _ => .http 500 body) now).1.error
        = httpErrString 500 body ∧
      (sendWebhook w payload (fun _ => .http 500 body) now).1.completedAt = some now ∧
      (sendWebhook w payload (fun _ => .http 500 body) now).2.1 = .lastFailure ∧
      (sendWebhook w payload (fun _ => .http 500 body) now).2.2
        = List.range' 1 (w.maxRetries - 1)) ∧
    (∀ resp k, 1 ≤ k → k ≤ w.maxRetries →
      (∀ i, 1 ≤ i → i < k → ¬ is2xx (resp i)) → is2xx (resp k) →
      (sendWebhook w payload resp now).1.success = true ∧
      (sendWebhook w payload resp now).1.attempts = k ∧
      (sendWebhook w payload resp now).2.1 = .lastSuccess) := by
  have hmr := effectiveMaxRetries_pos w hm
  constructor
  · intro body
    have hs : ¬ ((200:Nat) ≤ 500 ∧ (500:Nat) < 300) := by omega
    have hrun : runAttempts w (fun _ => .http 500 body)
        = { attempts := effectiveMaxRetries w, statusCode := 500, response := body,
            success := false, lastErr := httpErrString 500 body,
            sleeps := List.range' 1 (effectiveMaxRetries w - 1) } := by
      unfold runAttempts
      rw [webhookAttempts_const_fail 500 body hs (effectiveMaxRetries w)
        (effectiveMaxRetries w) 1 initLoopState (by omega) (by rw [hmr]; omega)]
      unfold initLoopState
      simp
    unfold sendWebhook
    rw [hrun, hmr]
    exact ⟨rfl, rfl, rfl, rfl, rfl, rfl, rfl⟩
  · intro resp k hk1 hkm hfail hsucc
    obtain ⟨h1, h2⟩ := webhookAttempts_first_success resp (effectiveMaxRetries w) k
      (by rw [hmr]; exact hkm) hfail hsucc (effectiveMaxRetries w) 1 initLoopState
      (by omega) (by omega) hk1
    have h1' : (runAttempts w resp).success = true := h1
    have h2' : (runAttempts w resp).attempts = k := h2
    unfold sendWebhook
    rw [h1', h2']
    exact ⟨rfl, rfl, rfl⟩

/-- A concrete webhook with an explicit retry budget. -/
def retryHook : Webhook :=
  { id := "w-2", name := "sink", url := "http://sink", events := ["machine.enrolled"]
    secret := "", active := true, headers := [], timeout := 5, maxRetries := 3 }

/-- Witness for `webhook_retry_and_backoff` at a concrete webhook and
failing target. -/
theorem webhook_retry_and_backoff_witness :
    0 < retryHook.maxRetries ∧
    (sendWebhook retryHook "p" (fun _ => .http 500 "oops") 4).1.attempts
      = retryHook.maxRetries ∧
    (sendWebhook retryHook "p" (fun _ => .http 500 "oops") 4).2.2
      = List.range' 1 (retryHook.maxRetries - 1) :=
  ⟨by decide,
   ((webhook_retry_and_backoff retryHook (by decide) "p" 4).1 "oops").1,
   ((webhook_retry_and_backoff retryHook (by decide) "p" 4).1 "oops").2.2.2.2.2.2⟩

/-- A webhook subscribed to every event via the wildcard. -/
def wildcardHook : Webhook :=
  { id := "w-1", name := "n", url := "http://sink", events := ["*"], secret := ""
    active := true, headers := [], timeout := 0, maxRetries := 0 }

/-- **C10.**  Every webhook matched by a fan-out has a non-empty events
list (so the `Events[0]` access is safe), and the stored delivery row's
`event` field is that list's first element — concretely, a `"*"`
subscriber's deliveries are recorded under event `"*"`, not under the
triggered `"machine.enrolled"`. -/
theorem delivery_event_first_subscribed :
    (∀ whs ev w, w ∈ getWebhooksByEvent whs ev →
      ∃ e rest, w.events = e :: rest ∧
        ∀ payload resp now, (sendWebhook w payload resp now).1.event = e) ∧
    getWebhooksByEvent [wildcardHook] "machine.enrolled" = [wildcardHook] ∧
    (sendWebhook wildcardHook "p" (fun _ => .http 200 "ok") 1).1.event = "*" ∧
    ("*" : String) ≠ "machine.enrolled" := by
  refine ⟨?_, by decide, by decide, by decide⟩
  intro whs ev w hw
  unfold getWebhooksByEvent at hw
  rw [List.mem_filter] at hw
  have hany := hw.2
  cases hev : w.events with
  | nil => rw [hev] at hany; simp at hany
  | cons e rest =>
    refine ⟨e, rest, rfl, ?_⟩
    intro payload resp now
    show w.events.headD "" = e
    rw [hev]
    rfl

/-- Witness for `delivery_event_first_subscribed` at the wildcard
webhook. -/
theorem delivery_event_first_subscribed_witness :
    wildcardHook ∈ getWebhooksByEvent [wildcardHook] "machine.enrolled" ∧
    (sendWebhook wildcardHook "q" (fun _ => .http 200 "ok") 2).1.event = "*" := by
  refine ⟨by decide, ?_⟩
  obtain ⟨e, rest, hev, hall⟩ := delivery_event_first_subscribed.1
    [wildcardHook] "machine.enrolled" wildcardHook (by decide)
  have h2 : ("*" :: [] : List String) = e :: rest := hev
  injection h2 with h3 h4
  rw [hall "q" (fun _ => .http 200 "ok") 2, ← h3]

/-! ## HMAC-SHA256 signatures and request headers (claim C8) -/

/-- `2^32`, the word modulus of SHA-256. -/
def w32 : Nat := 4294967296

/-- 32-bit right rotation (inputs kept below `2^32`). -/
def rotR32 (n x : Nat) : Nat := (x >>> n) ||| ((x % (2 ^ n)) <<< (32 - n))

def upSig0 (x : Nat) : Nat := (rotR32 2 x) ^^^ (rotR32 13 x) ^^^ (rotR32 22 x)

def upSig1 (x : Nat) : Nat := (rotR32 6 x) ^^^ (rotR32 11 x) ^^^ (rotR32 25 x)

def loSig0 (x : Nat) : Nat := (rotR32 7 x) ^^^ (rotR32 18 x) ^^^ (x >>> 3)

def loSig1 (x : Nat) : Nat := (rotR32 17 x) ^^^ (rotR32 19 x) ^^^ (x >>> 10)

def chFn (x y z : Nat) : Nat := (x &&& y) ^^^ ((x ^^^ 4294967295) &&& z)

def majFn (x y z : Nat) : Nat := (x &&& y) ^^^ (x &&& z) ^^^ (y &&& z)

/-- The 64 SHA-256 round constants. -/
def sha256K : List Nat :=
  [1116352408, 1899447441, 3049323471, 3921009573, 961987163,
   1508970993, 2453635748, 2870763221, 3624381080, 310598401,
   607225278, 1426881987, 1925078388, 2162078206, 2614888103,
   3248222580, 3835390401, 4022224774, 264347078, 604807628,
   770255983, 1249150122, 1555081692, 1996064986, 2554220882,
   2821834349, 2952996808, 3210313671, 3336571891, 3584528711,
   113926993, 338241895, 666307205, 773529912, 1294757372,
   1396182291, 1695183700, 1986661051, 2177026350, 2456956037,
   2730485921, 2820302411, 3259730800, 3345764771, 3516065817,
   3600352804, 4094571909, 275423344, 430227734, 506948616,
   659060556, 883997877, 958139571, 1322822218, 1537002063,
   1747873779, 1955562222, 2024104815, 2227730452, 2361852424,
   2428436474, 2756734187, 3204031479, 3329325298]

/-- The SHA-256 initial hash state. -/
def sha256H0 : List Nat :=
  [1779033703, 3144134277, 1013904242, 2773480762,
   1359893119, 2600822924, 528734635, 1541459225]

def nextScheduleWord (ws : List Nat) : Nat :=
  (loSig1 (ws.getD (ws.length - 2) 0) + ws.getD (ws.length - 7) 0
    + loSig0 (ws.getD (ws.length - 15) 0) + ws.getD (ws.length - 16) 0) % w32

/-- Extend the 16 message words to the 64-entry schedule. -/
def extendSchedule : Nat → List Nat → List Nat
  | 0, ws => ws
  | k + 1, ws => extendSchedule k (ws ++ [nextScheduleWord ws])

def compressRound (regs : List Nat) (kw : Nat × Nat) : List Nat :=
  match regs with
  | [a, b, c, d, e, f, g, h] =>
    let t1 := (h + upSig1 e + chFn e f g + kw.1 + kw.2) % w32
    let t2 := (upSig0 a + majFn a b c) % w32
    [(t1 + t2) % w32, a, b, c, (d + t1) % w32, e, f, g]
  | other => other

def compressBlock (hs : List Nat) (block : List Nat) : List Nat :=
  let regs := (sha256K.zip (extendSchedule 48 block)).foldl compressRound hs
  (hs.zip regs).map (fun p => (p.1 + p.2) % w32)

def bytesToWords : List Nat → List Nat
  | b0 :: b1 :: b2 :: b3 :: rest =>
      (((b0 * 256 + b1) * 256 + b2) * 256 + b3) :: bytesToWords rest
  | _ => []

def wordToBytes (x : Nat) : List Nat :=
  [x / 16777216 % 256, x / 65536 % 256, x / 256 % 256, x % 256]

def len64be (n : Nat) : List Nat :=
  [n / 2 ^ 56 % 256, n / 2 ^ 48 % 256, n / 2 ^ 40 % 256, n / 2 ^ 32 % 256,
   n / 2 ^ 24 % 256, n / 2 ^ 16 % 256, n / 2 ^ 8 % 256, n % 256]

/-- Append `0x80`, zero bytes up to 56 mod 64, and the big-endian 64-bit
bit length. -/
def sha256pad (msg : List Nat) : List Nat :=
  msg ++ [128] ++ List.replicate ((120 - (msg.length + 1) % 64) % 64) 0
      ++ len64be (msg.length * 8)

/-- Split into 64-byte blocks (fuel-bounded; the padded length is the
fuel and always suffices). -/
def chunkB : Nat → List Nat → List (List Nat)
  | 0, _ => []
  | _, [] => []
  | fuel + 1, bs => bs.take 64 :: chunkB fuel (bs.drop 64)

/-- SHA-256 over a byte sequence (each entry `< 256`), as `crypto/sha256`
computes it: pad, compress block by block, serialize the final state
big-endian. -/
def sha256 (msg : List Nat) : List Nat :=
  ((chunkB (sha256pad msg).length (sha256pad msg)).foldl
      (fun hs blk => compressBlock hs (bytesToWords blk)) sha256H0).foldr
    (fun x acc => wordToBytes x ++ acc) []

def hexDigit (n : Nat) : Char := "0123456789abcdef".data.getD n 'x'

/-- `hex.EncodeToString`: lowercase hexadecimal of a byte sequence. -/
def hexLower (bs : List Nat) : String :=
  ⟨bs.foldr (fun b acc => hexDigit (b / 16) :: hexDigit (b % 16) :: acc) []⟩

/-- UTF-8 encoding of one character (Go strings are UTF-8 bytes). -/
def utf8Bytes (c : Char) : List Nat :=
  if c.toNat < 128 then [c.toNat]
  else if c.toNat < 2048 then [192 + c.toNat / 64, 128 + c.toNat % 64]
  else if c.toNat < 65536 then
    [224 + c.toNat / 4096, 128 + c.toNat / 64 % 64, 128 + c.toNat % 64]
  else
    [240 + c.toNat / 262144, 128 + c.toNat / 4096 % 64,
     128 + c.toNat / 64 % 64, 128 + c.toNat % 64]

/-- A Go string's bytes. -/
def strBytes (s : String) : List Nat :=
  s.data.foldr (fun c acc => utf8Bytes c ++ acc) []

/-- `crypto/hmac` over SHA-256 (block size 64): hash over-long keys, pad
to the block size, inner pad `0x36`, outer pad `0x5c`. -/
def hmacSha256 (key msg : List Nat) : List Nat :=
  let k0 := if 64 < key.length then sha256 key else key
  let k1 := k0 ++ List.replicate (64 - k0.length) 0
  sha256 ((k1.map (fun b => b ^^^ 92)) ++ sha256 ((k1.map (fun b => b ^^^ 54)) ++ msg))

/-- `Service.generateSignature`: lowercase hex of
`HMAC-SHA256(payload, secret)`. -/
def generateSignature (payload secret : String) : String :=
  hexLower (hmacSha256 (strBytes secret) (strBytes payload))

/-- `http.Header.Set`: replace the value stored under a key, appending
when absent.  (Go canonicalizes header names MIME-style; keys here are
taken already canonical, as every literal in the source is.) -/
def setHeader (hs : List (String × String)) (k v : String) : List (String × String) :=
  if hs.any (fun p => p.1 == k) then hs.map (fun p => if p.1 == k then (k, v) else p)
  else hs ++ [(k, v)]

/-- `http.Header.Get`: first value stored under a key. -/
def getHeader (hs : List (String × String)) (k : String) : Option String :=
  (hs.find? (fun p => p.1 == k)).map Prod.snd

/-- The two headers `sendWebhook` always sets first. -/
def defaultWebhookHeaders : List (String × String) :=
  setHeader (setHeader [] "Content-Type" "application/json")
    "User-Agent" "Metal-Enrollment-Webhook/1.0"

/-- ... then the webhook's custom headers, each applied with `Set` (and
therefore able to replace the defaults). -/
def customizedHeaders (w : Webhook) : List (String × String) :=
  w.headers.foldl (fun hs kv => setHeader hs kv.1 kv.2) defaultWebhookHeaders

/-- ... and finally, when a secret is configured, the HMAC signature
header (set last, after the custom headers). -/
def buildWebhookHeaders (w : Webhook) (payload : String) : List (String × String) :=
  if w.secret != "" then
    setHeader (customizedHeaders w) "X-Webhook-Signature"
      (generateSignature payload w.secret)
  else customizedHeaders w

theorem find?_map_replace (k v : String) :
    ∀ hs : List (String × String), hs.any (fun q => q.1 == k) = true →
      (hs.map (fun q => if q.1 == k then (k, v) else q)).find? (fun q => q.1 == k)
        = some (k, v) := by
  intro hs
  induction hs with
  | nil => intro h; simp at h
  | cons a rest ih =>
    intro hany
    by_cases hp : (a.1 == k) = true
    · simp only [List.map_cons, if_pos hp]
      rw [List.find?_cons_of_pos (p := fun (q : String × String) => q.1 == k) _ (by simp)]
    · simp only [List.map_cons, if_neg hp]
      rw [List.find?_cons_of_neg (p := fun (q : String × String) => q.1 == k) _ hp]
      apply ih
      rw [List.any_cons] at hany
      rcases Bool.or_eq_true_iff.mp hany with h1 | h2
      · exact absurd h1 hp
      · exact h2

theorem find?_none_of_any_false (k : String) (hs : List (String × String))
    (h : hs.any (fun q => q.1 == k) = false) :
    hs.find? (fun q => q.1 == k) = none := by
  rw [List.find?_eq_none]
  intro x hx hc
  rw [List.any_eq_false] at h
  exact h x hx hc

theorem getHeader_setHeader_same (hs : List (String × String)) (k v : String) :
    getHeader (setHeader hs k v) k = some v := by
  unfold setHeader getHeader
  by_cases hany : hs.any (fun q => q.1 == k) = true
  · rw [if_pos hany, find?_map_replace k v hs hany]
    rfl
  · rw [if_neg hany, List.find?_append,
        find?_none_of_any_false k hs (Bool.eq_false_iff.mpr hany)]
    rw [List.find?_cons_of_pos (p := fun (q : String × String) => q.1 == k) _ (by simp)]
    rfl

theorem find?_map_replace_other (k v k' : String) (hkk : ¬ (k == k') = true) :
    ∀ hs : List (String × String),
      (hs.map (fun q => if q.1 == k then (k, v) else q)).find? (fun q => q.1 == k')
        = hs.find? (fun q => q.1 == k') := by
  intro hs
  induction hs with
  | nil => rfl
  | cons a rest ih =>
    by_cases hp : (a.1 == k) = true
    · simp only [List.map_cons, if_pos hp]
      rw [List.find?_cons_of_neg (p := fun (q : String × String) => q.1 == k') _
        (show ¬ ((k, v).1 == k') = true from hkk)]
      rw [List.find?_cons_of_neg (p := fun (q : String × String) => q.1 == k') _ ?hpneg]
      · exact ih
      case hpneg =>
        intro hc
        apply hkk
        have hpk : a.1 = k := by simpa using hp
        rw [← hpk]
        exact hc
    · simp only [List.map_cons, if_neg hp]
      by_cases hq : (a.1 == k') = true
      · rw [List.find?_cons_of_pos (p := fun (q : String × String) => q.1 == k') _ hq,
            List.find?_cons_of_pos (p := fun (q : String × String) => q.1 == k') _ hq]
      · rw [List.find?_cons_of_neg (p := fun (q : String × String) => q.1 == k') _ hq,
            List.find?_cons_of_neg (p := fun (q : String × String) => q.1 == k') _ hq]
        exact ih

theorem getHeader_setHeader_other (hs : List (String × String)) (k v k' : String)
    (h : k' ≠ k) :
    getHeader (setHeader hs k v) k' = getHeader hs k' := by
  have hkk : ¬ (k == k') = true := by
    simp only [beq_iff_eq]
    exact fun he => h he.symm
  unfold setHeader getHeader
  by_cases hany : hs.any (fun q => q.1 == k) = true
  · rw [if_pos hany, find?_map_replace_other k v k' hkk hs]
  · rw [if_neg hany, List.find?_append]
    rw [List.find?_cons_of_neg (p := fun (q : String × String) => q.1 == k') _
      (show ¬ ((k, v).1 == k') = true from hkk)]
    rw [show List.find? (fun q => q.1 == k') ([] : List (String × String)) = none from rfl]
    rw [Option.or_none]

theorem getHeader_foldl_setHeader_other (k' : String) :
    ∀ (l h0 : List (String × String)), (∀ kv ∈ l, kv.1 ≠ k') →
      getHeader (l.foldl (fun hs kv => setHeader hs kv.1 kv.2) h0) k'
        = getHeader h0 k' := by
  intro l
  induction l with
  | nil => intro h0 _; rfl
  | cons kv rest ih =>
    intro h0 h
    show getHeader (rest.foldl _ (setHeader h0 kv.1 kv.2)) k' = _
    rw [ih (setHeader h0 kv.1 kv.2) (fun x hx => h x (List.mem_cons_of_mem kv hx))]
    exact getHeader_setHeader_other h0 kv.1 kv.2 k'
      (Ne.symm (h kv (List.mem_cons_self kv rest)))

/-- A webhook whose custom headers re-use the two default header names. -/
def overrideHook : Webhook :=
  { id := "w-3", name := "ct", url := "http://sink", events := ["*"], secret := ""
    active := true
    headers := [("Content-Type", "text/plain"), ("User-Agent", "Evil/2.0")]
    timeout := 0, maxRetries := 0 }

/-- **C8, counterexample.**  Custom headers are applied with `Set` *after*
the two defaults, so a webhook configured with custom `Content-Type` or
`User-Agent` headers DOES override them — the request goes out with
`Content-Type: text/plain` and `User-Agent: Evil/2.0`, not the claimed
fixed values. -/
theorem webhook_custom_headers_override_cex :
    getHeader (buildWebhookHeaders overrideHook "p") "Content-Type" = some "text/plain" ∧
    getHeader (buildWebhookHeaders overrideHook "p") "User-Agent" = some "Evil/2.0" ∧
    ("text/plain" : String) ≠ "application/json" ∧
    ("Evil/2.0" : String) ≠ "Metal-Enrollment-Webhook/1.0" := by decide

/-- **C8 (amended).**  For a webhook with a non-empty secret, every
delivery carries `X-Webhook-Signature` equal to the lowercase hex
HMAC-SHA256 of exactly the request body keyed by the secret (the header
is set last and cannot be displaced by custom headers); one fan-out hands
the same marshalled bytes to every matched webhook; `Content-Type:
application/json` and `User-Agent: Metal-Enrollment-Webhook/1.0` are the
defaults but custom headers of the same name DO override them (they hold
whenever no custom header re-uses those names).  The embedded
`hmacSha256`/`sha256` agree with FIPS 180-4 / RFC 4231 test vectors. -/
theorem webhook_signature_and_headers (w : Webhook) (payload : String) :
    (w.secret ≠ "" →
      getHeader (buildWebhookHeaders w payload) "X-Webhook-Signature"
        = some (generateSignature payload w.secret)) ∧
    ((∀ kv ∈ w.headers, kv.1 ≠ "Content-Type") →
      getHeader (buildWebhookHeaders w payload) "Content-Type"
        = some "application/json") ∧
    ((∀ kv ∈ w.headers, kv.1 ≠ "User-Agent") →
      getHeader (buildWebhookHeaders w payload) "User-Agent"
        = some "Metal-Enrollment-Webhook/1.0") ∧
    (∀ whs ev p d, d ∈ triggerEventDeliveries whs ev p → d.2 = p) ∧
    generateSignature payload w.secret
      = hexLower (hmacSha256 (strBytes w.secret) (strBytes payload)) ∧
    hexLower (sha256 (strBytes "abc"))
      = "ba7816bf8f01cfea414140de5dae2223b00361a396177a9cb410ff61f20015ad" ∧
    hexLower (hmacSha256 (strBytes "Jefe") (strBytes "what do ya want for nothing?"))
      = "5bdcc146bf60754e6a042426089575c75a003f089d2739839dec58b964ec3843" := by
  refine ⟨?_, ?_, ?_, ?_, rfl, by decide, by decide⟩
  · intro hsec
    have hb : (w.secret != "") = true := by simpa using hsec
    unfold buildWebhookHeaders
    rw [if_pos hb]
    exact getHeader_setHeader_same _ _ _
  · intro h
    have hstep : getHeader (customizedHeaders w) "Content-Type"
        = some "application/json" := by
      unfold customizedHeaders
      rw [getHeader_foldl_setHeader_other "Content-Type" w.headers
        defaultWebhookHeaders h]
      decide
    unfold buildWebhookHeaders
    by_cases hb : (w.secret != "") = true
    · rw [if_pos hb, getHeader_setHeader_other _ _ _ _ (by decide)]
      exact hstep
    · rw [if_neg hb]
      exact hstep
  · intro h
    have hstep : getHeader (customizedHeaders w) "User-Agent"
        = some "Metal-Enrollment-Webhook/1.0" := by
      unfold customizedHeaders
      rw [getHeader_foldl_setHeader_other "User-Agent" w.headers
        defaultWebhookHeaders h]
      decide
    unfold buildWebhookHeaders
    by_cases hb : (w.secret != "") = true
    · rw [if_pos hb, getHeader_setHeader_other _ _ _ _ (by decide)]
      exact hstep
    · rw [if_neg hb]
      exact hstep
  · intro whs ev p d hd
    unfold triggerEventDeliveries at hd
    rw [List.mem_map] at hd
    obtain ⟨x, -, hx⟩ := hd
    rw [← hx]

/-- A webhook with a configured secret and no custom headers. -/
def secretHook : Webhook :=
  { id := "w-4", name := "sig", url := "http://sink", events := ["machine.enrolled"]
    secret := "abc", active := true, headers := [], timeout := 0, maxRetries := 0 }

/-- Witness for `webhook_signature_and_headers` at a concrete webhook. -/
theorem webhook_signature_and_headers_witness :
    secretHook.secret ≠ "" ∧
    getHeader (buildWebhookHeaders secretHook "p") "X-Webhook-Signature"
      = some (generateSignature "p" secretHook.secret) ∧
    (∀ kv ∈ secretHook.headers, kv.1 ≠ "Content-Type") ∧
    getHeader (buildWebhookHeaders secretHook "p") "Content-Type"
      = some "application/json" :=
  ⟨by decide,
   (webhook_signature_and_headers secretHook "p").1 (by decide),
   by decide,
   (webhook_signature_and_headers secretHook "p").2.1 (by decide)⟩

end MetalEnroll
